import Mathlib

/-!
Verification of the bounded-concurrency fetch pipeline of shellcaster-classic.

The Rust sources embedded here are src/downloads.rs (descriptor type, the
download job, extension resolution) and src/main.rs (the sync and import
aggregation loops).  Effectful collaborators that are external to those files
are modelled as explicit parameters:

* the HTTP transport is a function from the attempt index to an optional
  response (none = transport failure on that attempt);
* the filesystem is a pair of booleans saying whether file creation and the
  byte copy succeed;
* the database persistence operations are boolean-returning functions;
* the result channel is the list of messages the aggregation loop receives,
  and the thread pool (repository code outside the provided sources,
  modelled from the spec: execute runs each submitted closure to completion
  exactly once) is modelled by mapping each submitted descriptor to the one
  message its job closure sends.
-/

namespace Shellcaster

/-- Publish timestamp, reduced to the calendar fields the filename templates
consume.  Models chrono DateTime of Utc for template rendering. -/
structure Date where
  year : Nat
  month : Nat
  day : Nat
deriving Repr, DecidableEq

/-- Episode download descriptor, from src/downloads.rs lines 26-34.
PathBuf is modelled as String. -/
structure EpData where
  id : Int
  pod_id : Int
  title : String
  url : String
  pubdate : Option Date
  file_path : Option String
deriving Repr, DecidableEq

/-- Result of one download job, from src/downloads.rs lines 16-22. -/
inductive DownloadMsg where
  | Complete (e : EpData)
  | ResponseError (e : EpData)
  | FileCreateError (e : EpData)
  | FileWriteError (e : EpData)
deriving Repr, DecidableEq

/-- The descriptor carried by a download outcome (every variant carries one). -/
def DownloadMsg.payload : DownloadMsg → EpData
  | .Complete e => e
  | .ResponseError e => e
  | .FileCreateError e => e
  | .FileWriteError e => e

/-- The part of an HTTP response the download job consumes: the value of the
content-type header.  Models ureq Response. -/
structure Resp where
  contentType : Option String
deriving Repr, DecidableEq

/-- Modelled from the spec: podcast record handed to the persistence store
(types.rs is repository code outside the provided sources); only the fields
the aggregation loops read are kept. -/
structure Podcast where
  id : Int
  title : String
  url : String
deriving Repr, DecidableEq

/-- Modelled from the spec: feed descriptor carried by feed error messages. -/
structure PodcastFeed where
  id : Option Int
  url : String
  title : Option String
deriving Repr, DecidableEq

/-- Modelled from the spec: the tagged feed-result messages of the external
feed collaborator (SyncData, NewData, Error). -/
inductive FeedMsg where
  | SyncData (pod_id : Int) (pod : Podcast)
  | NewData (pod : Podcast)
  | Error (feed : PodcastFeed)
deriving Repr, DecidableEq

/-- Modelled from the spec: the message type of the result channel, carrying
either a download outcome or a feed outcome. -/
inductive Message where
  | Dl (msg : DownloadMsg)
  | Feed (msg : FeedMsg)
deriving Repr, DecidableEq

/-- Text after the last occurrence of the separator character, or the whole
string if the separator does not occur.  This is the first element yielded by
the Rust calls url.rsplit(sep).next() in src/downloads.rs lines 178-185;
that first element always exists, so the None arms there are unreachable. -/
def afterLastChar (sep : Char) (s : String) : String :=
  ⟨(s.data.reverse.takeWhile (fun c => !(c == sep))).reverse⟩

/-- The thirteen fixed MIME-table arms of get_file_ext, src/downloads.rs
lines 162-174; none stands for reaching the wildcard arm. -/
def mimeTableExt : Option String → Option String
  | some "audio/3gpp" => some "3gp"
  | some "audio/aac" => some "aac"
  | some "audio/x-m4a" => some "m4a"
  | some "audio/midi" => some "mid"
  | some "audio/x-midi" => some "mid"
  | some "audio/mpeg" => some "mp3"
  | some "audio/ogg" => some "oga"
  | some "audio/opus" => some "opus"
  | some "audio/wav" => some "wav"
  | some "audio/webm" => some "weba"
  | some "video/quicktime" => some "mov"
  | some "video/mp4" => some "mp4"
  | some "video/x-m4v" => some "m4v"
  | _ => none

/-- Extension resolution, from src/downloads.rs lines 158-190: the fixed
MIME table (factored as mimeTableExt, identical arms), then the text after
the last dot of the text after the last slash of the URL.  The URL fallback
always yields a string (see afterLastChar), so the wildcard arm is some. -/
def get_file_ext (mime_type : Option String) (url : String) : Option String :=
  match mimeTableExt mime_type with
  | some ext => some ext
  | none => some (afterLastChar '.' (afterLastChar '/' url))

/-- The extension actually used by download_file, from src/downloads.rs
lines 107-112: get_file_ext with the mp3 default for the None case. -/
def resolvedExt (mime_type : Option String) (url : String) : String :=
  match get_file_ext mime_type url with
  | some ext => ext
  | none => "mp3"

/-- Characters the sanitizer removes: the Windows-illegal set and control
characters. -/
def illegalFilenameChar (c : Char) : Bool :=
  c == '/' || c == '?' || c == '<' || c == '>' || c == '\\' || c == ':' ||
    c == '*' || c == '|' || c == '"' || decide (c.val < 32)

/-- Modelled from the spec: sanitize_with_options of the external
sanitize-filename crate with the options used at src/downloads.rs lines
114-119 (windows true, truncate true, empty replacement) - strip characters
illegal under the Windows convention, replacing them with the empty string,
and truncate to a bounded length. -/
def sanitize (title : String) : String :=
  ⟨(title.data.filter (fun c => !illegalFilenameChar c)).take 255⟩

/-- Result of the retry loop of src/downloads.rs lines 84-97: success at a
given attempt index with the response, permanent failure carrying the number
of attempts made, or the unsigned underflow that the source would hit if the
loop were entered with a zero budget and the attempt failed. -/
inductive RetryResult where
  | ok (idx : Nat) (resp : Resp)
  | err (attempts : Nat)
  | underflow
deriving Repr

/-- The retry loop of src/downloads.rs lines 84-97.  budget is the current
value of max_retries, i the index of the attempt about to be made.  Each
failed attempt decrements the budget; the loop exits with err exactly when
the budget reaches zero after a failed attempt, and exits with ok as soon as
an attempt succeeds. -/
def retryGo (transport : Nat → Option Resp) : Nat → Nat → RetryResult
  | 0, i =>
    match transport i with
    | some resp => RetryResult.ok i resp
    | none => RetryResult.underflow
  | b + 1, i =>
    match transport i with
    | some resp => RetryResult.ok i resp
    | none =>
      if b = 0 then RetryResult.err (i + 1) else retryGo transport b (i + 1)

/-- The download job, from src/downloads.rs lines 66-153.  The HTTP agent,
filesystem and the chrono template renderer are passed as explicit models;
none is returned only on the retry-loop underflow (never with a positive
budget). -/
def download_file (ep_data : EpData) (dest : String) (max_retries : Nat)
    (pfx sfx : String) (render : String → Date → String)
    (transport : Nat → Option Resp) (create_ok write_ok : Bool) :
    Option DownloadMsg :=
  match retryGo transport max_retries 0 with
  | .underflow => none
  | .err _ => some (.ResponseError ep_data)
  | .ok _ resp =>
    let ext := resolvedExt resp.contentType ep_data.url
    let file_name := sanitize ep_data.title
    let file_name :=
      match ep_data.pubdate with
      | some pubdate => render pfx pubdate ++ file_name ++ render sfx pubdate
      | none => file_name
    let file_path := dest ++ "/" ++ (file_name ++ "." ++ ext)
    let ep_data := { ep_data with file_path := some file_path }
    if create_ok then
      if write_ok then some (.Complete ep_data) else some (.FileWriteError ep_data)
    else some (.FileCreateError ep_data)

/-- Per-job effect environment: the transport and filesystem oracles owned by
one job closure. -/
structure JobEnv where
  transport : Nat → Option Resp
  create_ok : Bool
  write_ok : Bool

/-- Submission of a batch of download jobs, from src/downloads.rs lines
40-62.  The thread pool (modelled from the spec: execute runs every
submitted closure to completion exactly once) turns each descriptor into the
single message its closure sends on the result channel. -/
def download_list (episodes : List (EpData × JobEnv)) (dest : String)
    (max_retries : Nat) (pfx sfx : String)
    (render : String → Date → String) : List (Option Message) :=
  episodes.map (fun job =>
    (download_file job.1 dest max_retries pfx sfx render
      job.2.transport job.2.create_ok job.2.write_ok).map Message.Dl)

/-- Decimal digit character for the last decimal digit of a number. -/
def digitCh (n : Nat) : Char :=
  match n % 10 with
  | 0 => '0'
  | 1 => '1'
  | 2 => '2'
  | 3 => '3'
  | 4 => '4'
  | 5 => '5'
  | 6 => '6'
  | 7 => '7'
  | 8 => '8'
  | _ => '9'

/-- Zero-padded four-digit decimal rendering (the Y specifier of chrono for
years up to 9999). -/
def pad4 (n : Nat) : String :=
  ⟨[digitCh (n / 1000), digitCh (n / 100), digitCh (n / 10), digitCh n]⟩

/-- Zero-padded two-digit decimal rendering (the m and d specifiers of
chrono for values up to 99). -/
def pad2 (n : Nat) : String :=
  ⟨[digitCh (n / 10), digitCh n]⟩

/-- Modelled from the spec: the strftime walk of the chrono formatter used
for the filename date templates (an external crate), restricted to the Y, m
and d specifiers and literal characters, for dates with year at most 9999. -/
def strfWalk (d : Date) : List Char → List Char
  | [] => []
  | '%' :: 'Y' :: rest => (pad4 d.year).data ++ strfWalk d rest
  | '%' :: 'm' :: rest => (pad2 d.month).data ++ strfWalk d rest
  | '%' :: 'd' :: rest => (pad2 d.day).data ++ strfWalk d rest
  | c :: rest => c :: strfWalk d rest

/-- Modelled from the spec: rendering a filename date template against a
publish timestamp (chrono DateTime format). -/
def renderTemplate (tpl : String) (d : Date) : String :=
  ⟨strfWalk d tpl.data⟩

/-- What a batch operation (sync or import) observably did: its verdict (Ok
versus Err of the Rust Result), how many messages it received from the
channel, the persistence calls it issued in order, and whether it created
and used the channel at all. -/
structure BatchResult (α : Type) where
  ok : Bool
  received : Nat
  persisted : List α
  channelCreated : Bool
deriving Repr

/-- The receive loop shared by sync_podcasts (src/main.rs lines 247-287) and
the import subcommand (src/main.rs lines 402-445): receive one message,
dispatch on its tag
through step (which returns whether the message sets the failure flag and
which persistence call it issues), increment the counter, and stop as soon
as the counter reaches n.  Arguments after the message list are the loop
state: counter, failure flag, persistence calls issued so far. -/
def aggLoop (step : Message → Bool × Option α) (n : Nat) :
    List Message → Nat → Bool → List α → Nat × Bool × List α
  | [], c, f, us => (c, f, us)
  | m :: rest, c, f, us =>
    let r := step m
    let f2 := f || r.1
    let us2 :=
      match r.2 with
      | some u => us ++ [u]
      | none => us
    if n ≤ c + 1 then (c + 1, f2, us2) else aggLoop step n rest (c + 1) f2 us2

/-- Message dispatch of the sync loop, src/main.rs lines 251-280: a SyncData
message invokes the database update (failure flag set when it errors, and
the call is recorded either way), a feed Error message sets the failure
flag, every other message does nothing.  db_update models
Database.update_podcast returning success or failure. -/
def syncStep (db_update : Int → Podcast → Bool) :
    Message → Bool × Option (Int × Podcast)
  | .Feed (.SyncData pod_id pod) => (!db_update pod_id pod, some (pod_id, pod))
  | .Feed (.Error _) => (true, none)
  | _ => (false, none)

/-- The sync subcommand, src/main.rs lines 211-298, after the database
queries: with an empty podcast list it returns Ok immediately, before the
channel is created; otherwise it submits one feed job per podcast (the feed
collaborator, modelled from the spec, sends exactly one message per job -
msgs is the stream the channel delivers), runs the receive loop with
n = podcast_list.length, and returns Err exactly when the failure flag was
set. -/
def sync_podcasts (podcast_list : List Podcast)
    (db_update : Int → Podcast → Bool) (msgs : List Message) :
    BatchResult (Int × Podcast) :=
  if podcast_list.isEmpty then ⟨true, 0, [], false⟩
  else
    let r := aggLoop (syncStep db_update) podcast_list.length msgs 0 false []
    ⟨!r.2.1, r.1, r.2.2, true⟩

/-- Message dispatch of the import loop, src/main.rs lines 406-438: a
NewData message invokes the database insert, a feed Error message sets the
failure flag, every other message does nothing.  db_insert models
Database.insert_podcast. -/
def importStep (db_insert : Podcast → Bool) : Message → Bool × Option Podcast
  | .Feed (.NewData pod) => (!db_insert pod, some pod)
  | .Feed (.Error _) => (true, none)
  | _ => (false, none)

/-- The import subcommand, src/main.rs lines 304-456, after OPML parsing and
duplicate filtering: with an empty list it returns Ok immediately before the
channel is created, otherwise it submits one feed job per entry and runs the
same receive loop with n = podcast_list.length. -/
def importPodcasts (podcast_list : List PodcastFeed)
    (db_insert : Podcast → Bool) (msgs : List Message) :
    BatchResult Podcast :=
  if podcast_list.isEmpty then ⟨true, 0, [], false⟩
  else
    let r := aggLoop (importStep db_insert) podcast_list.length msgs 0 false []
    ⟨!r.2.1, r.1, r.2.2, true⟩

/-! Helper lemmas about the retry loop. -/

theorem retryGo_some (t : Nat → Option Resp) (b i : Nat) (r : Resp)
    (ht : t i = some r) : retryGo t b i = RetryResult.ok i r := by
  cases b <;> simp [retryGo, ht]

theorem retryGo_zero_none (t : Nat → Option Resp) (i : Nat)
    (ht : t i = none) : retryGo t 0 i = RetryResult.underflow := by
  simp [retryGo, ht]

theorem retryGo_succ_none (t : Nat → Option Resp) (b i : Nat)
    (ht : t i = none) :
    retryGo t (b + 1) i =
      if b = 0 then RetryResult.err (i + 1) else retryGo t b (i + 1) := by
  simp [retryGo, ht]

theorem retryGo_ne_underflow (t : Nat → Option Resp) :
    ∀ b i, 1 ≤ b → retryGo t b i ≠ RetryResult.underflow := by
  intro b
  induction b with
  | zero => intro i h; omega
  | succ b ih =>
    intro i _
    cases ht : t i with
    | some r => simp [retryGo_some t _ i r ht]
    | none =>
      rw [retryGo_succ_none t b i ht]
      by_cases hb : b = 0
      · subst hb; simp
      · rw [if_neg hb]
        exact ih (i + 1) (Nat.one_le_iff_ne_zero.mpr hb)

theorem retryGo_all_fail (t : Nat → Option Resp) (hfail : ∀ j, t j = none) :
    ∀ b i, 1 ≤ b → retryGo t b i = RetryResult.err (i + b) := by
  intro b
  induction b with
  | zero => intro i h; omega
  | succ b ih =>
    intro i _
    rw [retryGo_succ_none t b i (hfail i)]
    by_cases hb : b = 0
    · subst hb; simp
    · rw [if_neg hb, ih (i + 1) (Nat.one_le_iff_ne_zero.mpr hb)]
      congr 1
      omega

theorem retryGo_first_success (t : Nat → Option Resp) :
    ∀ k b i r, k < b → (∀ j, j < k → t (i + j) = none) → t (i + k) = some r →
      retryGo t b i = RetryResult.ok (i + k) r := by
  intro k
  induction k with
  | zero =>
    intro b i r _ _ hsucc
    simp only [Nat.add_zero] at hsucc
    rw [retryGo_some t b i r hsucc]
    simp
  | succ k ih =>
    intro b i r hb hfail hsucc
    have h0 : t i = none := by
      have := hfail 0 (Nat.succ_pos k)
      simpa using this
    obtain ⟨b1, rfl⟩ : ∃ b1, b = b1 + 1 := ⟨b - 1, by omega⟩
    have hb1 : b1 ≠ 0 := by omega
    rw [retryGo_succ_none t b1 i h0, if_neg hb1]
    have hrec := ih b1 (i + 1) r (by omega)
      (fun j hj => by
        have := hfail (j + 1) (by omega)
        simpa [Nat.add_assoc, Nat.add_comm 1 j] using this)
      (by
        have harith : i + 1 + k = i + (k + 1) := by omega
        rw [harith]; exact hsucc)
    rw [hrec]
    congr 1
    omega

theorem retryGo_err_attempts (t : Nat → Option Resp) :
    ∀ b i a, retryGo t b i = RetryResult.err a → a = i + b := by
  intro b
  induction b with
  | zero =>
    intro i a h
    cases ht : t i with
    | some r => rw [retryGo_some t 0 i r ht] at h; simp at h
    | none => rw [retryGo_zero_none t i ht] at h; simp at h
  | succ b ih =>
    intro i a h
    cases ht : t i with
    | some r => rw [retryGo_some t (b + 1) i r ht] at h; simp at h
    | none =>
      rw [retryGo_succ_none t b i ht] at h
      by_cases hb : b = 0
      · subst hb
        rw [if_pos rfl] at h
        simp at h
        omega
      · rw [if_neg hb] at h
        have := ih (i + 1) a h
        omega

theorem download_file_total (ep : EpData) (dest : String) (max_retries : Nat)
    (pfx sfx : String) (render : String → Date → String)
    (t : Nat → Option Resp) (create_ok write_ok : Bool)
    (h : 1 ≤ max_retries) :
    ∃ d, download_file ep dest max_retries pfx sfx render t create_ok write_ok
      = some d := by
  rw [download_file.eq_def]
  cases hr : retryGo t max_retries 0 with
  | underflow => exact absurd hr (retryGo_ne_underflow t max_retries 0 h)
  | err a => exact ⟨.ResponseError ep, rfl⟩
  | ok k resp =>
    cases create_ok <;> cases write_ok <;> exact ⟨_, rfl⟩

/-- C1: with a retry budget of at least one, every submitted descriptor
produces exactly one message on the result channel - download_file is total
(never the underflow outcome) and yields exactly one of the four DownloadMsg
variants, and download_list turns each of its n descriptors into exactly one
sent message. -/
theorem one_outcome_per_submitted_job (episodes : List (EpData × JobEnv))
    (dest : String) (max_retries : Nat) (pfx sfx : String)
    (render : String → Date → String) (h : 1 ≤ max_retries) :
    (download_list episodes dest max_retries pfx sfx render).length
      = episodes.length ∧
    ∀ o ∈ download_list episodes dest max_retries pfx sfx render,
      ∃ d, o = some (Message.Dl d) ∧
        ((∃ e, d = DownloadMsg.Complete e) ∨
          (∃ e, d = DownloadMsg.ResponseError e) ∨
          (∃ e, d = DownloadMsg.FileCreateError e) ∨
          (∃ e, d = DownloadMsg.FileWriteError e)) := by
  constructor
  · exact List.length_map _ _
  · intro o ho
    rw [download_list] at ho
    obtain ⟨job, _, rfl⟩ := List.mem_map.mp ho
    obtain ⟨d, hd⟩ := download_file_total job.1 dest max_retries pfx sfx render
      job.2.transport job.2.create_ok job.2.write_ok h
    refine ⟨d, by rw [hd]; rfl, ?_⟩
    cases d with
    | Complete e => exact Or.inl ⟨e, rfl⟩
    | ResponseError e => exact Or.inr (Or.inl ⟨e, rfl⟩)
    | FileCreateError e => exact Or.inr (Or.inr (Or.inl ⟨e, rfl⟩))
    | FileWriteError e => exact Or.inr (Or.inr (Or.inr ⟨e, rfl⟩))

theorem one_outcome_per_submitted_job_witness :
    (download_list [(⟨1, 2, "T", "h/f.mp3", none, none⟩,
        ⟨fun _ => none, true, true⟩)] "dst" 1 "" "" renderTemplate).length
      = 1 :=
  (one_outcome_per_submitted_job
    [(⟨1, 2, "T", "h/f.mp3", none, none⟩, ⟨fun _ => none, true, true⟩)]
    "dst" 1 "" "" renderTemplate (by decide)).1

/-- C3: with budget B of at least one and a transport that fails every
attempt, the retry loop makes exactly B attempts and download_file returns
the ResponseError outcome; and as soon as an attempt succeeds the loop exits
with that attempt's response. -/
theorem retry_budget_semantics (B : Nat) (hB : 1 ≤ B) :
    (∀ t : Nat → Option Resp, (∀ j, t j = none) →
      retryGo t B 0 = RetryResult.err B ∧
      ∀ ep dest pfx sfx render create_ok write_ok,
        download_file ep dest B pfx sfx render t create_ok write_ok
          = some (DownloadMsg.ResponseError ep)) ∧
    (∀ (t : Nat → Option Resp) (k : Nat) (r : Resp), k < B →
      (∀ j, j < k → t j = none) → t k = some r →
      retryGo t B 0 = RetryResult.ok k r) := by
  constructor
  · intro t hfail
    have herr : retryGo t B 0 = RetryResult.err B := by
      have := retryGo_all_fail t hfail B 0 hB
      simpa using this
    refine ⟨herr, ?_⟩
    intro ep dest pfx sfx render create_ok write_ok
    rw [download_file.eq_def, herr]
  · intro t k r hk hfail hsucc
    have := retryGo_first_success t k B 0 r hk
      (fun j hj => by simpa using hfail j hj) (by simpa using hsucc)
    simpa using this

theorem retry_budget_semantics_witness :
    retryGo (fun _ => none) 2 0 = RetryResult.err 2 ∧
    download_file ⟨1, 2, "T", "u", none, none⟩ "dst" 2 "" "" renderTemplate
        (fun _ => none) true true
      = some (DownloadMsg.ResponseError ⟨1, 2, "T", "u", none, none⟩) := by
  have h := (retry_budget_semantics 2 (by decide)).1 (fun _ => none)
    (fun j => rfl)
  exact ⟨h.1, h.2 ⟨1, 2, "T", "u", none, none⟩ "dst" "" "" renderTemplate
    true true⟩

/-- C10: with a retry budget of at least one the decrement in the retry loop
never underflows (the loop never reaches the state that would decrement a
zero budget), and the error exit is taken exactly when the budget is
exhausted: an err result reports exactly B attempts. -/
theorem retry_no_underflow (t : Nat → Option Resp) (B : Nat) (hB : 1 ≤ B) :
    retryGo t B 0 ≠ RetryResult.underflow ∧
    ∀ a, retryGo t B 0 = RetryResult.err a → a = B := by
  refine ⟨retryGo_ne_underflow t B 0 hB, ?_⟩
  intro a ha
  have := retryGo_err_attempts t B 0 a ha
  omega

theorem retry_no_underflow_witness :
    retryGo (fun _ => none) 3 0 ≠ RetryResult.underflow :=
  (retry_no_underflow (fun _ => none) 3 (by decide)).1


/-! Helper lemmas about the aggregation loop. -/

theorem aggLoop_count {α : Type} (step : Message → Bool × Option α) (n : Nat) :
    ∀ (msgs : List Message) (c : Nat) (f : Bool) (us : List α),
      c < n → n ≤ c + msgs.length → (aggLoop step n msgs c f us).1 = n := by
  intro msgs
  induction msgs with
  | nil =>
    intro c f us hc hlen
    simp at hlen
    omega
  | cons m rest ih =>
    intro c f us hc hlen
    rw [aggLoop]
    by_cases hn : n ≤ c + 1
    · rw [if_pos hn]
      omega
    · rw [if_neg hn]
      refine ih (c + 1) _ _ (by omega) ?_
      simp at hlen
      omega

theorem aggLoop_failure {α : Type} (step : Message → Bool × Option α) (n : Nat) :
    ∀ (msgs : List Message) (c : Nat) (f : Bool) (us : List α), c < n →
      (aggLoop step n msgs c f us).2.1
        = (f || (msgs.take (n - c)).any fun m => (step m).1) := by
  intro msgs
  induction msgs with
  | nil => intro c f us _; simp [aggLoop]
  | cons m rest ih =>
    intro c f us hc
    rw [aggLoop]
    by_cases hn : n ≤ c + 1
    · rw [if_pos hn]
      have h1 : n - c = 1 := by omega
      rw [h1]
      simp
    · rw [if_neg hn]
      rw [ih (c + 1) _ _ (by omega)]
      have h1 : n - c = (n - (c + 1)) + 1 := by omega
      rw [h1, List.take_succ_cons]
      simp [Bool.or_assoc]

theorem aggLoop_persisted {α : Type} (step : Message → Bool × Option α)
    (n : Nat) :
    ∀ (msgs : List Message) (c : Nat) (f : Bool) (us : List α), c < n →
      (aggLoop step n msgs c f us).2.2
        = us ++ (msgs.take (n - c)).filterMap fun m => (step m).2 := by
  intro msgs
  induction msgs with
  | nil => intro c f us _; simp [aggLoop]
  | cons m rest ih =>
    intro c f us hc
    rw [aggLoop]
    by_cases hn : n ≤ c + 1
    · rw [if_pos hn]
      have h1 : n - c = 1 := by omega
      rw [h1]
      cases hsm : (step m).2 <;> simp [List.filterMap_cons, hsm]
    · rw [if_neg hn]
      rw [ih (c + 1) _ _ (by omega)]
      have h1 : n - c = (n - (c + 1)) + 1 := by omega
      rw [h1, List.take_succ_cons]
      cases hsm : (step m).2 <;> simp [List.filterMap_cons, hsm]

/-- C2: for a non-empty batch the aggregation loop of sync_podcasts (and
likewise of import) receives exactly N messages, counting every message
regardless of its tag, and terminates; with an empty podcast list both
functions return at once reporting nothing to do, without creating or
receiving from the channel. -/
theorem aggregation_receives_exactly_n :
    (∀ (pods : List Podcast) (db_update : Int → Podcast → Bool)
        (msgs : List Message), pods ≠ [] → pods.length ≤ msgs.length →
      (sync_podcasts pods db_update msgs).received = pods.length ∧
      (sync_podcasts pods db_update msgs).channelCreated = true) ∧
    (∀ (db_update : Int → Podcast → Bool) (msgs : List Message),
      sync_podcasts [] db_update msgs = ⟨true, 0, [], false⟩) ∧
    (∀ (feeds : List PodcastFeed) (db_insert : Podcast → Bool)
        (msgs : List Message), feeds ≠ [] → feeds.length ≤ msgs.length →
      (importPodcasts feeds db_insert msgs).received = feeds.length ∧
      (importPodcasts feeds db_insert msgs).channelCreated = true) ∧
    (∀ (db_insert : Podcast → Bool) (msgs : List Message),
      importPodcasts [] db_insert msgs = ⟨true, 0, [], false⟩) := by
  refine ⟨?_, ?_, ?_, ?_⟩
  · intro pods db_update msgs hne hlen
    have hemp : pods.isEmpty = false := by
      simpa [List.isEmpty_iff] using hne
    have hpos : 0 < pods.length := List.length_pos.mpr hne
    rw [sync_podcasts, hemp]
    simp only [Bool.false_eq_true, if_false]
    refine ⟨?_, trivial⟩
    exact aggLoop_count _ pods.length msgs 0 false [] hpos (by omega)
  · intro db_update msgs
    rw [sync_podcasts]
    rfl
  · intro feeds db_insert msgs hne hlen
    have hemp : feeds.isEmpty = false := by
      simpa [List.isEmpty_iff] using hne
    have hpos : 0 < feeds.length := List.length_pos.mpr hne
    rw [importPodcasts, hemp]
    simp only [Bool.false_eq_true, if_false]
    refine ⟨?_, trivial⟩
    exact aggLoop_count _ feeds.length msgs 0 false [] hpos (by omega)
  · intro db_insert msgs
    rw [importPodcasts]
    rfl

theorem aggregation_receives_exactly_n_witness :
    ((sync_podcasts [⟨1, "A", "u"⟩] (fun _ _ => true)
        [Message.Feed (FeedMsg.SyncData 1 ⟨1, "A", "u"⟩)]).received = 1 ∧
      (sync_podcasts [⟨1, "A", "u"⟩] (fun _ _ => true)
        [Message.Feed (FeedMsg.SyncData 1 ⟨1, "A", "u"⟩)]).channelCreated
        = true) ∧
    sync_podcasts [] (fun _ _ => true) [] = ⟨true, 0, [], false⟩ ∧
    ((importPodcasts [⟨some 1, "u", some "A"⟩] (fun _ => true)
        [Message.Feed (FeedMsg.NewData ⟨1, "A", "u"⟩)]).received = 1 ∧
      (importPodcasts [⟨some 1, "u", some "A"⟩] (fun _ => true)
        [Message.Feed (FeedMsg.NewData ⟨1, "A", "u"⟩)]).channelCreated
        = true) ∧
    importPodcasts [] (fun _ => true) [] = ⟨true, 0, [], false⟩ :=
  ⟨aggregation_receives_exactly_n.1 _ _ _ (by decide) (by decide),
    aggregation_receives_exactly_n.2.1 _ _,
    aggregation_receives_exactly_n.2.2.1 _ _ _ (by decide) (by decide),
    aggregation_receives_exactly_n.2.2.2 _ _⟩

/-- C5: the batch verdict of sync_podcasts (and of import) is failure
exactly when at least one of the N received messages is failure-tagged (a
feed Error, or a SyncData or NewData message whose database update or
insert fails), and the database call of every SyncData or NewData message
among the N received ones is issued regardless of the failure flag, so
successes are persisted even when the overall verdict is failure. -/
theorem batch_verdict_iff_some_failure :
    (∀ (pods : List Podcast) (db_update : Int → Podcast → Bool)
        (msgs : List Message), pods ≠ [] →
      ((sync_podcasts pods db_update msgs).ok = false ↔
        ∃ m ∈ msgs.take pods.length, (syncStep db_update m).1 = true) ∧
      (sync_podcasts pods db_update msgs).persisted
        = (msgs.take pods.length).filterMap fun m => (syncStep db_update m).2) ∧
    (∀ (feeds : List PodcastFeed) (db_insert : Podcast → Bool)
        (msgs : List Message), feeds ≠ [] →
      ((importPodcasts feeds db_insert msgs).ok = false ↔
        ∃ m ∈ msgs.take feeds.length, (importStep db_insert m).1 = true) ∧
      (importPodcasts feeds db_insert msgs).persisted
        = (msgs.take feeds.length).filterMap
            fun m => (importStep db_insert m).2) := by
  constructor
  · intro pods db_update msgs hne
    have hemp : pods.isEmpty = false := by
      simpa [List.isEmpty_iff] using hne
    have hpos : 0 < pods.length := List.length_pos.mpr hne
    rw [sync_podcasts, hemp]
    simp only [Bool.false_eq_true, if_false]
    constructor
    · rw [aggLoop_failure _ pods.length msgs 0 false [] hpos]
      simp [List.any_eq_true]
    · rw [aggLoop_persisted _ pods.length msgs 0 false [] hpos]
      simp
  · intro feeds db_insert msgs hne
    have hemp : feeds.isEmpty = false := by
      simpa [List.isEmpty_iff] using hne
    have hpos : 0 < feeds.length := List.length_pos.mpr hne
    rw [importPodcasts, hemp]
    simp only [Bool.false_eq_true, if_false]
    constructor
    · rw [aggLoop_failure _ feeds.length msgs 0 false [] hpos]
      simp [List.any_eq_true]
    · rw [aggLoop_persisted _ feeds.length msgs 0 false [] hpos]
      simp

theorem batch_verdict_iff_some_failure_witness :
    (sync_podcasts [⟨1, "A", "u"⟩, ⟨2, "B", "v"⟩] (fun _ _ => true)
        [Message.Feed (FeedMsg.SyncData 1 ⟨1, "A", "u"⟩),
          Message.Feed (FeedMsg.Error ⟨some 2, "v", some "B"⟩)]).ok
      = false ∧
    (sync_podcasts [⟨1, "A", "u"⟩, ⟨2, "B", "v"⟩] (fun _ _ => true)
        [Message.Feed (FeedMsg.SyncData 1 ⟨1, "A", "u"⟩),
          Message.Feed (FeedMsg.Error ⟨some 2, "v", some "B"⟩)]).persisted
      = [(1, ⟨1, "A", "u"⟩)] ∧
    (importPodcasts [⟨some 1, "u", some "A"⟩] (fun _ => false)
        [Message.Feed (FeedMsg.NewData ⟨1, "A", "u"⟩)]).ok = false ∧
    (importPodcasts [⟨some 1, "u", some "A"⟩] (fun _ => false)
        [Message.Feed (FeedMsg.NewData ⟨1, "A", "u"⟩)]).persisted
      = [⟨1, "A", "u"⟩] := by
  have h1 := batch_verdict_iff_some_failure.1
    [⟨1, "A", "u"⟩, ⟨2, "B", "v"⟩] (fun _ _ => true)
    [Message.Feed (FeedMsg.SyncData 1 ⟨1, "A", "u"⟩),
      Message.Feed (FeedMsg.Error ⟨some 2, "v", some "B"⟩)] (by decide)
  have h2 := batch_verdict_iff_some_failure.2
    [⟨some 1, "u", some "A"⟩] (fun _ => false)
    [Message.Feed (FeedMsg.NewData ⟨1, "A", "u"⟩)] (by decide)
  refine ⟨?_, ?_, ?_, ?_⟩
  · exact h1.1.mpr ⟨Message.Feed (FeedMsg.Error ⟨some 2, "v", some "B"⟩),
      by decide, by decide⟩
  · rw [h1.2]; decide
  · exact h2.1.mpr ⟨Message.Feed (FeedMsg.NewData ⟨1, "A", "u"⟩),
      by decide, by decide⟩
  · rw [h2.2]; decide

/-- C9: download_file returns the descriptor with id, pod_id, title, url and
pubdate exactly as submitted in every outcome variant - only file_path may
change - and the ResponseError outcome carries the descriptor completely
unchanged, file_path included. -/
theorem download_frame (ep : EpData) (dest : String) (max_retries : Nat)
    (pfx sfx : String) (render : String → Date → String)
    (t : Nat → Option Resp) (create_ok write_ok : Bool) (msg : DownloadMsg)
    (h : download_file ep dest max_retries pfx sfx render t create_ok write_ok
      = some msg) :
    (msg.payload.id = ep.id ∧ msg.payload.pod_id = ep.pod_id ∧
      msg.payload.title = ep.title ∧ msg.payload.url = ep.url ∧
      msg.payload.pubdate = ep.pubdate) ∧
    ∀ e, msg = DownloadMsg.ResponseError e → e.file_path = ep.file_path := by
  rw [download_file.eq_def] at h
  split at h
  · exact absurd h (by simp)
  · injection h with h
    subst h
    refine ⟨⟨rfl, rfl, rfl, rfl, rfl⟩, ?_⟩
    intro e he
    injection he with he
    rw [he]
  · dsimp only at h
    split at h
    · split at h <;>
        (injection h with h; subst h;
          exact ⟨⟨rfl, rfl, rfl, rfl, rfl⟩,
            fun e he => DownloadMsg.noConfusion he⟩)
    · injection h with h
      subst h
      exact ⟨⟨rfl, rfl, rfl, rfl, rfl⟩,
        fun e he => DownloadMsg.noConfusion he⟩

theorem download_frame_witness :
    (DownloadMsg.payload (DownloadMsg.ResponseError
        ⟨5, 6, "T", "h/f.mp3", none, some "old"⟩)).id = 5 ∧
    EpData.file_path ⟨5, 6, "T", "h/f.mp3", none, some "old"⟩
      = some "old" := by
  have h := download_frame ⟨5, 6, "T", "h/f.mp3", none, some "old"⟩ "dst" 1
    "" "" renderTemplate (fun _ => none) true true
    (DownloadMsg.ResponseError ⟨5, 6, "T", "h/f.mp3", none, some "old"⟩)
    (by decide)
  exact ⟨h.1.1, h.2 ⟨5, 6, "T", "h/f.mp3", none, some "old"⟩ rfl⟩

/-- C8: the modelled sanitization is idempotent and its output never
contains a character that is illegal under the Windows filesystem
convention. -/
theorem sanitize_idempotent_and_safe (s : String) :
    sanitize (sanitize s) = sanitize s ∧
    ∀ c ∈ (sanitize s).data, illegalFilenameChar c = false := by
  have hmem : ∀ c ∈ (s.data.filter fun c => !illegalFilenameChar c).take 255,
      (!illegalFilenameChar c) = true := by
    intro c hc
    have hmem2 : c ∈ s.data.filter (fun c => !illegalFilenameChar c) :=
      List.mem_of_mem_take hc
    exact (List.mem_filter.mp hmem2).2
  constructor
  · have h2 : (((s.data.filter fun c => !illegalFilenameChar c).take
          255).filter (fun c => !illegalFilenameChar c)).take 255
        = (s.data.filter fun c => !illegalFilenameChar c).take 255 := by
      rw [List.filter_eq_self.mpr hmem, List.take_take, Nat.min_self]
    exact congrArg String.mk h2
  · intro c hc
    have := hmem c hc
    simpa using this

theorem sanitize_idempotent_and_safe_witness :
    sanitize (sanitize "Ep: One/Two") = sanitize "Ep: One/Two" ∧
    illegalFilenameChar 'E' = false :=
  ⟨(sanitize_idempotent_and_safe "Ep: One/Two").1,
    (sanitize_idempotent_and_safe "Ep: One/Two").2 'E' (by decide)⟩

/-- The extension-resolution rule as the claim words it: the table entry;
otherwise the text after the last dot of the last slash-delimited segment of
the URL; and mp3 when neither the table nor the URL yields an extension (no
dot in the last segment). -/
def specResolvedExt (mime_type : Option String) (url : String) : String :=
  match mimeTableExt mime_type with
  | some ext => ext
  | none =>
    let seg := afterLastChar '/' url
    if seg.data.contains '.' then afterLastChar '.' seg else "mp3"

/-- C4 counterexample: with no content type and a URL whose last segment has
no dot, the claim resolves the extension to mp3, but the code resolves it to
the whole last segment - the mp3 default arm is dead code because the URL
split always yields a string. -/
theorem ext_resolution_counterexample :
    resolvedExt none "https://example.com/episode" = "episode" ∧
    specResolvedExt none "https://example.com/episode" = "mp3" ∧
    ("episode" : String) ≠ "mp3" := by decide

/-- C4 amended: table content types resolve exactly per the table; any
absent or unmapped content type resolves to the text after the last dot of
the last slash-delimited URL segment - the whole segment when it has no dot,
the empty string when it ends with a dot - and get_file_ext never returns
none, so the mp3 default of download_file is unreachable. -/
theorem ext_resolution_amended :
    (∀ url : String,
      resolvedExt (some "audio/3gpp") url = "3gp" ∧
      resolvedExt (some "audio/aac") url = "aac" ∧
      resolvedExt (some "audio/x-m4a") url = "m4a" ∧
      resolvedExt (some "audio/midi") url = "mid" ∧
      resolvedExt (some "audio/x-midi") url = "mid" ∧
      resolvedExt (some "audio/mpeg") url = "mp3" ∧
      resolvedExt (some "audio/ogg") url = "oga" ∧
      resolvedExt (some "audio/opus") url = "opus" ∧
      resolvedExt (some "audio/wav") url = "wav" ∧
      resolvedExt (some "audio/webm") url = "weba" ∧
      resolvedExt (some "video/quicktime") url = "mov" ∧
      resolvedExt (some "video/mp4") url = "mp4" ∧
      resolvedExt (some "video/x-m4v") url = "m4v") ∧
    (∀ (mime_type : Option String) (url : String),
      mimeTableExt mime_type = none →
      get_file_ext mime_type url
        = some (afterLastChar '.' (afterLastChar '/' url)) ∧
      resolvedExt mime_type url
        = afterLastChar '.' (afterLastChar '/' url)) ∧
    (∀ (mime_type : Option String) (url : String),
      get_file_ext mime_type url ≠ none) := by
  refine ⟨?_, ?_, ?_⟩
  · intro url
    exact ⟨rfl, rfl, rfl, rfl, rfl, rfl, rfl, rfl, rfl, rfl, rfl, rfl, rfl⟩
  · intro mime_type url h
    have hg : get_file_ext mime_type url
        = some (afterLastChar '.' (afterLastChar '/' url)) := by
      simp [get_file_ext, h]
    exact ⟨hg, by simp [resolvedExt, hg]⟩
  · intro mime_type url
    cases hm : mimeTableExt mime_type <;> simp [get_file_ext, hm]

theorem ext_resolution_amended_witness :
    get_file_ext none "https://example.com/file.m4a" = some "m4a" ∧
    resolvedExt none "https://example.com/file.m4a" = "m4a" := by
  have h := ext_resolution_amended.2.1 none "https://example.com/file.m4a"
    (by decide)
  refine ⟨?_, ?_⟩
  · rw [h.1]; decide
  · rw [h.2]; decide

/-- C7 counterexample: for the title with a colon and a slash, the empty
replacement of the sanitizer removes the illegal characters without
inserting anything, so the synthesized filename is Ep OneTwo.mp3, not the
Ep One Two.mp3 the claim states. -/
theorem scenario_filename_counterexample :
    download_file
        ⟨1, 2, "Ep: One/Two", "http://example.com/file.mp3", none, none⟩
        "podcasts" 3 "" "" renderTemplate
        (fun _ => some ⟨some "audio/mpeg"⟩) true true
      ≠ some (DownloadMsg.Complete
          ⟨1, 2, "Ep: One/Two", "http://example.com/file.mp3", none,
            some "podcasts/Ep One Two.mp3"⟩) ∧
    download_file
        ⟨1, 2, "Ep: One/Two", "http://example.com/file.mp3", none, none⟩
        "podcasts" 3 "" "" renderTemplate
        (fun _ => some ⟨some "audio/mpeg"⟩) true true
      = some (DownloadMsg.Complete
          ⟨1, 2, "Ep: One/Two", "http://example.com/file.mp3", none,
            some "podcasts/Ep OneTwo.mp3"⟩) := by decide

/-- C7 amended: with title Ep: One/Two, a URL ending in file.mp3, content
type audio/mpeg, no publish date and empty templates, the synthesized
destination filename is exactly Ep OneTwo.mp3 - the colon and the slash are
removed and replaced by nothing, and the extension comes from the MIME
table. -/
theorem scenario_filename_amended :
    sanitize "Ep: One/Two" = "Ep OneTwo" ∧
    resolvedExt (some "audio/mpeg") "http://example.com/file.mp3" = "mp3" ∧
    download_file
        ⟨1, 2, "Ep: One/Two", "http://example.com/file.mp3", none, none⟩
        "podcasts" 3 "" "" renderTemplate
        (fun _ => some ⟨some "audio/mpeg"⟩) true true
      = some (DownloadMsg.Complete
          ⟨1, 2, "Ep: One/Two", "http://example.com/file.mp3", none,
            some "podcasts/Ep OneTwo.mp3"⟩) := by decide

theorem digitCh_isDigit (n : Nat) : (digitCh n).isDigit = true := by
  unfold digitCh
  split <;> decide

theorem render_ymdDash (d : Date) :
    renderTemplate "%Y%m%d-" d
      = pad4 d.year ++ pad2 d.month ++ pad2 d.day ++ "-" := rfl

/-- C6: on the success path of the transport, the synthesized filename is
the rendered date template around the sanitized title when a publish
timestamp is present (the sanitized title alone otherwise) followed by a
dot and the resolved extension; the full path, destination directory
joined with the filename, is stored in the descriptor before any file
input or output, so the Complete, FileCreateError and FileWriteError
outcomes all carry it; and with the date template of the scenario the
rendered part is eight digits followed by a dash. -/
theorem filename_synthesis :
    (∀ (ep : EpData) (dest : String) (max_retries : Nat) (pfx sfx : String)
        (render : String → Date → String) (t : Nat → Option Resp)
        (create_ok write_ok : Bool) (d : Date) (k : Nat) (resp : Resp),
      ep.pubdate = some d → retryGo t max_retries 0 = RetryResult.ok k resp →
      download_file ep dest max_retries pfx sfx render t create_ok write_ok
        = some (if create_ok then
            (if write_ok then
              DownloadMsg.Complete { ep with file_path := some (dest ++ "/"
                ++ (render pfx d ++ sanitize ep.title ++ render sfx d ++ "."
                  ++ resolvedExt resp.contentType ep.url)) }
            else
              DownloadMsg.FileWriteError { ep with file_path := some (dest
                ++ "/" ++ (render pfx d ++ sanitize ep.title ++ render sfx d
                  ++ "." ++ resolvedExt resp.contentType ep.url)) })
          else
            DownloadMsg.FileCreateError { ep with file_path := some (dest
              ++ "/" ++ (render pfx d ++ sanitize ep.title ++ render sfx d
                ++ "." ++ resolvedExt resp.contentType ep.url)) })) ∧
    (∀ (ep : EpData) (dest : String) (max_retries : Nat) (pfx sfx : String)
        (render : String → Date → String) (t : Nat → Option Resp)
        (create_ok write_ok : Bool) (k : Nat) (resp : Resp),
      ep.pubdate = none → retryGo t max_retries 0 = RetryResult.ok k resp →
      download_file ep dest max_retries pfx sfx render t create_ok write_ok
        = some (if create_ok then
            (if write_ok then
              DownloadMsg.Complete { ep with file_path := some (dest ++ "/"
                ++ (sanitize ep.title ++ "."
                  ++ resolvedExt resp.contentType ep.url)) }
            else
              DownloadMsg.FileWriteError { ep with file_path := some (dest
                ++ "/" ++ (sanitize ep.title ++ "."
                  ++ resolvedExt resp.contentType ep.url)) })
          else
            DownloadMsg.FileCreateError { ep with file_path := some (dest
              ++ "/" ++ (sanitize ep.title ++ "."
                ++ resolvedExt resp.contentType ep.url)) })) ∧
    (∀ (d : Date) (tail : String), ∃ ds,
      renderTemplate "%Y%m%d-" d ++ tail = ds ++ ("-" ++ tail) ∧
      ds.length = 8 ∧ ds.data.all Char.isDigit = true) := by
  refine ⟨?_, ?_, ?_⟩
  · intro ep dest max_retries pfx sfx render t create_ok write_ok d k resp
      hpub hok
    rw [download_file.eq_def, hok]
    dsimp only
    rw [hpub]
    cases create_ok <;> cases write_ok <;> rfl
  · intro ep dest max_retries pfx sfx render t create_ok write_ok k resp
      hpub hok
    rw [download_file.eq_def, hok]
    dsimp only
    rw [hpub]
    cases create_ok <;> cases write_ok <;> rfl
  · intro d tail
    refine ⟨pad4 d.year ++ pad2 d.month ++ pad2 d.day, ?_, ?_, ?_⟩
    · rw [render_ymdDash d, String.append_assoc]
    · rw [String.length_append, String.length_append]
      rfl
    · simp [String.data_append, pad4, pad2, digitCh_isDigit]

theorem filename_synthesis_witness :
    download_file ⟨1, 2, "T", "h/f.mp3", some ⟨2024, 3, 7⟩, none⟩ "dst" 1
        "%Y%m%d-" "" renderTemplate (fun _ => some ⟨some "audio/mpeg"⟩)
        true true
      = some (if true then
          (if true then
            DownloadMsg.Complete ⟨1, 2, "T", "h/f.mp3", some ⟨2024, 3, 7⟩,
              some ("dst" ++ "/"
                ++ (renderTemplate "%Y%m%d-" ⟨2024, 3, 7⟩ ++ sanitize "T"
                  ++ renderTemplate "" ⟨2024, 3, 7⟩ ++ "."
                  ++ resolvedExt (some "audio/mpeg") "h/f.mp3"))⟩
          else
            DownloadMsg.FileWriteError ⟨1, 2, "T", "h/f.mp3",
              some ⟨2024, 3, 7⟩,
              some ("dst" ++ "/"
                ++ (renderTemplate "%Y%m%d-" ⟨2024, 3, 7⟩ ++ sanitize "T"
                  ++ renderTemplate "" ⟨2024, 3, 7⟩ ++ "."
                  ++ resolvedExt (some "audio/mpeg") "h/f.mp3"))⟩)
        else
          DownloadMsg.FileCreateError ⟨1, 2, "T", "h/f.mp3",
            some ⟨2024, 3, 7⟩,
            some ("dst" ++ "/"
              ++ (renderTemplate "%Y%m%d-" ⟨2024, 3, 7⟩ ++ sanitize "T"
                ++ renderTemplate "" ⟨2024, 3, 7⟩ ++ "."
                ++ resolvedExt (some "audio/mpeg") "h/f.mp3"))⟩) :=
  filename_synthesis.1 ⟨1, 2, "T", "h/f.mp3", some ⟨2024, 3, 7⟩, none⟩
    "dst" 1 "%Y%m%d-" "" renderTemplate
    (fun _ => some ⟨some "audio/mpeg"⟩) true true ⟨2024, 3, 7⟩ 0
    ⟨some "audio/mpeg"⟩ rfl rfl

end Shellcaster
